import Mathlib

/-!
Verification of the collage composition engine (`collage_engine.py`).

The Python source is shallowly embedded: Python floats are modelled as exact
rationals (every quantity the engine manipulates is produced by `lerp` between
small decimal constants at a PRNG output `k / 2^32`, so the rational model
agrees with IEEE double semantics except at representation-error knife edges,
which no statement below touches); Python's `int()` truncation is `pyInt`;
32-bit wraparound is explicit `% 2^32`; code that can raise returns `Except`;
Pillow raster primitives (`ImageDraw` fills, `paste`, `alpha_composite`) are
modelled pixelwise, and the genuinely external resampling/blur/numpy-noise
routines are supplied as a record of functions (`Prims`) that the theorems
quantify over.  Images are `Img`: a width, a height and a total pixel map.
File I/O (the final `save`) is outside the model; the file system is a map
from paths to optionally-decoded images.
-/

namespace Collage

/-- One RGBA pixel, 8-bit channels held as `Nat`. -/
structure RGBA where
  r : Nat
  g : Nat
  b : Nat
  a : Nat
deriving DecidableEq, Repr

/-- An RGB triple, as in the module-level palette constants. -/
structure RGB where
  r : Nat
  g : Nat
  b : Nat
deriving DecidableEq, Repr

/-- `color + (alpha,)` — extend an RGB triple with an alpha channel. -/
def RGB.withAlpha (c : RGB) (a : Nat) : RGBA := ⟨c.r, c.g, c.b, a⟩

-- ── Brand palette (module constants, lines 45-56) ──
def PARCHMENT : RGB := ⟨240, 235, 228⟩
def HERO_GROUND : RGB := ⟨42, 40, 36⟩
def OLIVE_GROUND : RGB := ⟨58, 56, 32⟩
def TERRACOTTA : RGB := ⟨180, 90, 45⟩
def TERRACOTTA_LITE : RGB := ⟨212, 135, 90⟩
def TEAL : RGB := ⟨45, 95, 107⟩
def GOLD : RGB := ⟨196, 154, 74⟩
def INK : RGB := ⟨42, 36, 32⟩
def CREAM : RGB := ⟨240, 235, 228⟩
def CREAM_DARK : RGB := ⟨212, 204, 196⟩
def NEAR_BLACK : RGB := ⟨26, 24, 16⟩
def HOT_PINK : RGB := ⟨232, 80, 120⟩

-- ── Seeded PRNG (`_hash_str` / `make_rng`, lines 60-76) ──

/-- `_hash_str`: FNV-1a-style 32-bit string hash (lines 60-65). -/
def hash_str (s : String) : Nat :=
  s.data.foldl (fun h ch => ((h ^^^ ch.toNat) * 16777619) % 2 ^ 32) 2166136261

/-- One update of the mulberry32-style state cell `s[0]` (lines 70-74).
The closure in `make_rng` mutates its captured cell by exactly this map. -/
def rngStep (s : Nat) : Nat :=
  let s1 := s ^^^ (s >>> 15)
  let s2 := (s1 * 0x2C9277B5) % 2 ^ 32
  let s3 := s2 ^^^ ((s2 + s2 * 0x3D) % 2 ^ 32)
  s3 ^^^ (s3 >>> 14)

/-- The float returned by one call of the rng closure:
`(s[0] & 0xFFFFFFFF) / 4294967296` after the state update (line 75). -/
def rngFloat (s : Nat) : ℚ := ((rngStep s % 2 ^ 32 : Nat) : ℚ) / 2 ^ 32

/-- One rng call: the produced float together with the updated state cell. -/
def rngNext (s : Nat) : ℚ × Nat := (rngFloat s, rngStep s)

/-- `make_rng`: the initial value of the captured state cell `s = [_hash_str(seed)]`
(line 69); successive calls then iterate `rngStep`. -/
def make_rng (seed : String) : Nat := hash_str seed

/-- `lerp(a, b, t) = a + (b - a) * t` (lines 78-79). -/
def lerp (a b t : ℚ) : ℚ := a + (b - a) * t

/-- Python `int()` applied to a float: truncation toward zero. -/
def pyInt (q : ℚ) : ℤ := if 0 ≤ q then ⌊q⌋ else -⌊-q⌋

/-- `clamp(v, lo, hi)` (lines 84-85). -/
def clamp (v lo hi : ℚ) : ℚ := max lo (min hi v)

/-- The list index `int(rng() * len(lst))` computed by `pick` (line 82),
together with the updated rng state. -/
def pickIdx (n : Nat) (s : Nat) : Nat × Nat :=
  ((pyInt (rngFloat s * n)).toNat, rngStep s)

/-- `pick(lst, rng) = lst[int(rng() * len(lst))]` (lines 81-82).  The index is
provably in range for a non-empty list (claim C10), so the `getD` default
(the head) is never reached. -/
def pick {α : Type} (lst : List α) (s : Nat) (h : lst ≠ []) : α × Nat :=
  (lst.getD (pickIdx lst.length s).1 (lst.head h), (pickIdx lst.length s).2)

-- ── Raster model ──

/-- An RGBA raster: width, height and a total pixel map.  Coordinates outside
`[0,w) × [0,h)` are irrelevant (Pillow clips every drawing operation). -/
structure Img where
  w : Nat
  h : Nat
  px : Nat → Nat → RGBA

/-- A single-channel ("L"-mode) raster, used for masks. -/
structure GrayImg where
  w : Nat
  h : Nat
  px : Nat → Nat → Nat

/-- `Image.new("RGBA", (w, h), color)`. -/
def newImg (w h : Nat) (c : RGBA) : Img := ⟨w, h, fun _ _ => c⟩

/-- `Image.new("L", (w, h), v)`. -/
def newGray (w h : Nat) (v : Nat) : GrayImg := ⟨w, h, fun _ _ => v⟩

/-- Membership of an integer point in Pillow's inclusive box `[x0, y0, x1, y1]`. -/
def inBox (x0 y0 x1 y1 x y : ℤ) : Prop := x0 ≤ x ∧ x ≤ x1 ∧ y0 ≤ y ∧ y ≤ y1

instance (x0 y0 x1 y1 x y : ℤ) : Decidable (inBox x0 y0 x1 y1 x y) := by
  unfold inBox; infer_instance

/-- Membership in the axis-aligned ellipse inscribed in the inclusive box
`[x0, y0, x1, y1]` (model of `ImageDraw.ellipse` with `fill`): the standard
ellipse inequality cleared of denominators.  The bottom extreme point
`((x0+x1)/2, y1)` satisfies it with equality. -/
def inEllipse (x0 y0 x1 y1 x y : ℤ) : Prop :=
  (2 * x - (x0 + x1)) ^ 2 * (y1 - y0) ^ 2 + (2 * y - (y0 + y1)) ^ 2 * (x1 - x0) ^ 2
    ≤ (x1 - x0) ^ 2 * (y1 - y0) ^ 2

instance (x0 y0 x1 y1 x y : ℤ) : Decidable (inEllipse x0 y0 x1 y1 x y) := by
  unfold inEllipse; infer_instance

/-- `draw.rectangle([x0, y0, x1, y1], fill=c)` on an RGBA image: set every
in-canvas pixel of the (inclusive) box to `c`. -/
def drawRect (img : Img) (x0 y0 x1 y1 : ℤ) (c : RGBA) : Img :=
  { img with px := fun x y =>
      if x < img.w ∧ y < img.h ∧ inBox x0 y0 x1 y1 x y then c else img.px x y }

/-- `draw.rectangle(..., fill=c)` on an "L"-mode mask. -/
def drawRectGray (img : GrayImg) (x0 y0 x1 y1 : ℤ) (v : Nat) : GrayImg :=
  { img with px := fun x y =>
      if x < img.w ∧ y < img.h ∧ inBox x0 y0 x1 y1 x y then v else img.px x y }

/-- `draw.rectangle(..., outline=c, width=k)`: set the pixels of the box border
band of thickness `k`. -/
def drawRectOutline (img : Img) (x0 y0 x1 y1 : ℤ) (k : Nat) (c : RGBA) : Img :=
  { img with px := fun x y =>
      if x < img.w ∧ y < img.h ∧ inBox x0 y0 x1 y1 x y ∧
          (x < x0 + k ∨ x1 - k < x ∨ y < y0 + k ∨ y1 - k < y) then c
      else img.px x y }

/-- `draw.ellipse([x0, y0, x1, y1], fill=c)`. -/
def drawEllipse (img : Img) (x0 y0 x1 y1 : ℤ) (c : RGBA) : Img :=
  { img with px := fun x y =>
      if x < img.w ∧ y < img.h ∧ inEllipse x0 y0 x1 y1 x y then c else img.px x y }

/-- `draw.ellipse(..., fill=v)` on an "L"-mode mask. -/
def drawEllipseGray (img : GrayImg) (x0 y0 x1 y1 : ℤ) (v : Nat) : GrayImg :=
  { img with px := fun x y =>
      if x < img.w ∧ y < img.h ∧ inEllipse x0 y0 x1 y1 x y then v else img.px x y }

/-- Squared distance (scaled by `L = |b - a|²` to stay in ℚ without roots) test:
the point `p` lies within distance `k/2` of segment `a-b`.  Model of Pillow's
`draw.line(..., width=k)` rasterisation as the stadium (capsule) around the
segment. -/
def nearSegment (axq ayq bxq byq pxq pyq : ℚ) (k : ℚ) : Prop :=
  let dx := bxq - axq
  let dy := byq - ayq
  let L := dx ^ 2 + dy ^ 2
  if L = 0 then (pxq - axq) ^ 2 + (pyq - ayq) ^ 2 ≤ (k / 2) ^ 2
  else
    let t := clamp (((pxq - axq) * dx + (pyq - ayq) * dy) / L) 0 1
    (pxq - (axq + dx * t)) ^ 2 + (pyq - (ayq + dy * t)) ^ 2 ≤ (k / 2) ^ 2

instance (a b c d e f k : ℚ) : Decidable (nearSegment a b c d e f k) := by
  unfold nearSegment
  dsimp only
  split <;> infer_instance

/-- `draw.line([(x1,y1),(x2,y2)], fill=c, width=k)`. -/
def drawLine (img : Img) (x1 y1 x2 y2 : ℤ) (k : Nat) (c : RGBA) : Img :=
  { img with px := fun x y =>
      if x < img.w ∧ y < img.h ∧
          nearSegment (x1 : ℚ) (y1 : ℚ) (x2 : ℚ) (y2 : ℚ) (x : ℚ) (y : ℚ) (k : ℚ) then c
      else img.px x y }

/-- Pillow's per-band blend used by `paste` with a mask value `m`:
`out = dest + (src - dest) * m / 255`, rounded. -/
def blend (d s m : Nat) : Nat := (d * (255 - m) + s * m + 127) / 255

/-- `canvas.paste(src, (px, py), src)` — paste an RGBA image using its own
alpha band as the mask; destination pixels outside the canvas are clipped. -/
def paste (canvas : Img) (src : Img) (posx posy : ℤ) : Img :=
  { canvas with px := fun x y =>
      let sx : ℤ := (x : ℤ) - posx
      let sy : ℤ := (y : ℤ) - posy
      if x < canvas.w ∧ y < canvas.h ∧ 0 ≤ sx ∧ sx < src.w ∧ 0 ≤ sy ∧ sy < src.h then
        let sp := src.px sx.toNat sy.toNat
        let dp := canvas.px x y
        ⟨blend dp.r sp.r sp.a, blend dp.g sp.g sp.a, blend dp.b sp.b sp.a,
         blend dp.a sp.a sp.a⟩
      else canvas.px x y }

/-- Straight-alpha Porter-Duff "over" for one pixel, integer arithmetic:
`Image.alpha_composite` semantics.  `outA255` is `255 ×` the composite alpha. -/
def compositePx (under over : RGBA) : RGBA :=
  let outA255 := over.a * 255 + under.a * (255 - over.a)
  if outA255 = 0 then ⟨0, 0, 0, 0⟩
  else
    ⟨(over.r * over.a * 255 + under.r * under.a * (255 - over.a)) / outA255,
     (over.g * over.a * 255 + under.g * under.a * (255 - over.a)) / outA255,
     (over.b * over.a * 255 + under.b * under.a * (255 - over.a)) / outA255,
     outA255 / 255⟩

/-- `Image.alpha_composite(under, over)` (both buffers have equal size in every
use in `compose`). -/
def alphaComposite (under over : Img) : Img :=
  { under with px := fun x y =>
      if x < under.w ∧ y < under.h then compositePx (under.px x y) (over.px x y)
      else under.px x y }

/-- The external library routines the engine delegates to: rotation with
`expand=True` and bicubic resampling, Lanczos resampling of a fragment to a
target size, the Gaussian blur of a torn-edge mask, and numpy's globally
seeded Gaussian noise (`np.random.seed` / `np.random.normal`).  Theorems
quantify over this record. -/
structure Prims where
  rotate : ℚ → Img → Img
  resample : Img → Nat → Nat → Nat → Nat → RGBA
  blurMask : GrayImg → GrayImg
  npSeed : Nat → Nat
  npNormal : ℚ → Nat → (Nat → Nat → ℚ) × Nat

/-- `img.resize((w', h'), resample=LANCZOS)`: the new size comes from the
caller, the resampled content from the library. -/
def resizeTo (P : Prims) (img : Img) (w' h' : Nat) : Img :=
  ⟨w', h', P.resample img w' h'⟩

-- ── Python iteration helpers ──

/-- `range(0, n, step)` (`step > 0`). -/
def rangeStep (n step : Nat) : List Nat :=
  (List.range ((n + step - 1) / step)).map (· * step)

/-- `range(a, b, step)` (`step > 0`). -/
def rangeFrom (a b step : Nat) : List Nat :=
  (List.range ((b - a + step - 1) / step)).map (fun i => a + i * step)

/-- Left fold threading a buffer and the rng state cell through a loop body,
the shape of every `for _ in range(n)` drawing loop in the engine. -/
def rngFold {β α : Type} (f : β → Nat → α → β × Nat) :
    List α → β → Nat → β × Nat
  | [], b, s => (b, s)
  | x :: xs, b, s =>
    let r := f b s x
    rngFold f xs r.1 r.2

-- ── `add_grain` (lines 89-96) ──

/-- `add_grain`: per-pixel additive Gaussian noise drawn from numpy's global
generator (`np.random.normal(0, intensity * 255, arr.shape[:2])`), broadcast
over the colour channels, clipped to `[0, 255]`.  Takes and returns the
numpy global state. -/
def add_grain (P : Prims) (st : Nat) (img : Img) (intensity : ℚ) : Img × Nat :=
  let pr := P.npNormal (intensity * 255) st
  ({ img with px := fun x y =>
      let p := img.px x y
      let n := pr.1 x y
      ⟨(pyInt (clamp ((p.r : ℚ) + n) 0 255)).toNat,
       (pyInt (clamp ((p.g : ℚ) + n) 0 255)).toNat,
       (pyInt (clamp ((p.b : ℚ) + n) 0 255)).toNat, p.a⟩ }, pr.2)

-- ── `draw_blueprint_grid` (lines 100-108) ──

/-- `draw_blueprint_grid`: uniform axis-aligned grid of 1-px lines at fixed
opacity; no rng. -/
def draw_blueprint_grid (img : Img) (w h : Nat) (cell : Nat) (opacity : ℚ)
    (color : RGB) : Img :=
  let alpha := (pyInt (opacity * 255)).toNat
  let lineColor := color.withAlpha alpha
  let img := (rangeStep w cell).foldl
    (fun im x => drawLine im (x : ℤ) 0 (x : ℤ) (h : ℤ) 1 lineColor) img
  (rangeStep h cell).foldl
    (fun im y => drawLine im 0 (y : ℤ) (w : ℤ) (y : ℤ) 1 lineColor) img

-- ── `draw_sketch_lines` (lines 112-122) ──

/-- One straight connector line: four rng draws for the endpoints. -/
def sketchLineStep (w h : Nat) (lineCol : RGBA) (img : Img) (s : Nat)
    (_i : Nat) : Img × Nat :=
  let (t1, s) := rngNext s
  let x1 := pyInt (lerp ((w : ℚ) * (1/10)) ((w : ℚ) * (9/10)) t1)
  let (t2, s) := rngNext s
  let y1 := pyInt (lerp ((h : ℚ) * (5/100)) ((h : ℚ) * (9/10)) t2)
  let (t3, s) := rngNext s
  let x2 := pyInt (lerp ((w : ℚ) * (1/10)) ((w : ℚ) * (9/10)) t3)
  let (t4, s) := rngNext s
  let y2 := pyInt (lerp ((h : ℚ) * (5/100)) ((h : ℚ) * (9/10)) t4)
  (drawLine img x1 y1 x2 y2 1 lineCol, s)

/-- `draw_sketch_lines`: `n` thin straight segments with randomized endpoints. -/
def draw_sketch_lines (img : Img) (w h n : Nat) (s : Nat) (color : RGB)
    (opacity : ℚ) : Img × Nat :=
  let alpha := (pyInt (opacity * 255)).toNat
  rngFold (sketchLineStep w h (color.withAlpha alpha)) (List.range n) img s

-- ── `draw_gesture_lines` (lines 126-151) ──

/-- Draw a polyline as consecutive width-2-style segments. -/
def drawPolyline (img : Img) (pts : List (ℤ × ℤ)) (width : Nat) (c : RGBA) : Img :=
  match pts with
  | [] => img
  | p :: rest =>
    (rest.foldl (fun (acc : Img × (ℤ × ℤ)) q =>
      (drawLine acc.1 acc.2.1 acc.2.2 q.1 q.2 width c, q)) (img, p)).1

/-- One gesture scribble: six rng draws for the three bezier control points,
then a 20-segment quadratic-bezier polyline approximation. -/
def gestureStep (w h : Nat) (lineCol : RGBA) (img : Img) (s : Nat)
    (_i : Nat) : Img × Nat :=
  let (t1, s) := rngNext s
  let p0x := pyInt (lerp ((w : ℚ) * (15/100)) ((w : ℚ) * (85/100)) t1)
  let (t2, s) := rngNext s
  let p0y := pyInt (lerp ((h : ℚ) * (10/100)) ((h : ℚ) * (70/100)) t2)
  let (t3, s) := rngNext s
  let p1x := pyInt (lerp ((w : ℚ) * (20/100)) ((w : ℚ) * (80/100)) t3)
  let (t4, s) := rngNext s
  let p1y := pyInt (lerp ((h : ℚ) * (10/100)) ((h : ℚ) * (70/100)) t4)
  let (t5, s) := rngNext s
  let p2x := pyInt (lerp ((w : ℚ) * (15/100)) ((w : ℚ) * (85/100)) t5)
  let (t6, s) := rngNext s
  let p2y := pyInt (lerp ((h : ℚ) * (10/100)) ((h : ℚ) * (70/100)) t6)
  let pts := (List.range 21).map (fun i =>
    let t : ℚ := (i : ℚ) / 20
    (pyInt ((1 - t) ^ 2 * p0x + 2 * (1 - t) * t * p1x + t ^ 2 * p2x),
     pyInt ((1 - t) ^ 2 * p0y + 2 * (1 - t) * t * p1y + t ^ 2 * p2y)))
  (drawPolyline img pts 2 lineCol, s)

/-- `draw_gesture_lines`: `n` expressive bezier-approximated scribbles. -/
def draw_gesture_lines (img : Img) (w h n : Nat) (s : Nat) (color : RGB)
    (opacity : ℚ) : Img × Nat :=
  let alpha := (pyInt (opacity * 255)).toNat
  rngFold (gestureStep w h (color.withAlpha alpha)) (List.range n) img s

-- ── `draw_color_blocks` (lines 155-193) ──

def BLOCK_COLORS : List RGB :=
  [NEAR_BLACK, TERRACOTTA, TEAL, HOT_PINK, CREAM_DARK, GOLD]

/-- One colour block: the seven rng draws of the loop body, then a paste of
the (optionally rotated) flat rectangle directly onto the canvas. -/
def colorBlockStep (P : Prims) (w h : Nat) (canvas : Img) (s : Nat)
    (_i : Nat) : Img × Nat :=
  let (color, s) := pick BLOCK_COLORS s (by decide)
  let (t2, s) := rngNext s
  let alpha := (pyInt (lerp 140 220 t2)).toNat
  let fill := color.withAlpha alpha
  let (t3, s) := rngNext s
  let bw := (pyInt (lerp ((w : ℚ) * (6/100)) ((w : ℚ) * (22/100)) t3)).toNat
  let (t4, s) := rngNext s
  let bh := (pyInt (lerp ((h : ℚ) * (8/100)) ((h : ℚ) * (28/100)) t4)).toNat
  let (t5, s) := rngNext s
  let bx := pyInt (lerp ((w : ℚ) * (-8/100)) ((w : ℚ) * (88/100) - (bw : ℚ)) t5)
  let (t6, s) := rngNext s
  let by' := pyInt (lerp ((h : ℚ) * (-6/100)) ((h : ℚ) * (58/100)) t6)
  let (t7, s) := rngNext s
  let angle := lerp (-8) 8 t7
  let block := newImg bw bh fill
  let block := if 1/2 < |angle| then P.rotate angle block else block
  (paste canvas block bx by', s)

/-- `draw_color_blocks`: the source creates `draw = ImageDraw.Draw(overlay)`
but never issues a drawing call on it — each block is built as a separate
image and pasted directly onto `canvas` (line 193).  The overlay is returned
unchanged. -/
def draw_color_blocks (P : Prims) (canvas overlay : Img) (w h n : Nat)
    (s : Nat) : Img × Img × Nat :=
  let r := rngFold (colorBlockStep P w h) (List.range n) canvas s
  (r.1, overlay, r.2)

-- ── `draw_accent_shapes` (lines 197-242) ──

def CIRCLE_OPTIONS : List (RGB × ℚ × Bool) :=
  [(NEAR_BLACK, 1, false),
   (TERRACOTTA, 88/100, true),
   (CREAM, 80/100, false),
   (CREAM_DARK, 75/100, false),
   (GOLD, 70/100, false),
   (TEAL, 65/100, false),
   (HOT_PINK, 60/100, false)]

/-- Layout record of one accent shape, kept alongside the drawing so the
placement geometry can be reasoned about directly. -/
structure AccentRec where
  isSquare : Bool
  color : RGB
  alpha : Nat
  hasX : Bool
  cx : ℤ
  cy : ℤ
  size : ℤ
deriving DecidableEq, Repr

/-- One accent shape: five rng draws (square/circle choice, palette pick,
centre x, centre y, size), then the rectangle or ellipse (plus optional X
cross-mark) drawn on the overlay. -/
def accentStep (w h : Nat) (overlay : Img) (s : Nat) : Img × Nat × AccentRec :=
  let (t1, s) := rngNext s
  let isSq := t1 < 2/5
  let (opt, s) := pick CIRCLE_OPTIONS s (by decide)
  let alpha := (pyInt (opt.2.1 * 220)).toNat
  let fill := opt.1.withAlpha alpha
  let (t3, s) := rngNext s
  let cx := pyInt (lerp 20 ((w : ℚ) - 20) t3)
  let (t4, s) := rngNext s
  let cy := pyInt (lerp 20 ((h : ℚ) * (68/100)) t4)
  if isSq then
    let (t5, s) := rngNext s
    let side := pyInt (lerp 4 14 t5)
    (drawRect overlay (cx - side) (cy - side) (cx + side) (cy + side) fill, s,
     ⟨true, opt.1, alpha, opt.2.2, cx, cy, side⟩)
  else
    let (t5, s) := rngNext s
    let r := pyInt (lerp ((w : ℚ) * (12/1000)) ((w : ℚ) * (45/1000)) t5)
    let o1 := drawEllipse overlay (cx - r) (cy - r) (cx + r) (cy + r) fill
    let o2 :=
      if opt.2.2 then
        let xc := pyInt ((r : ℚ) * (45/100))
        let xcol := CREAM.withAlpha 180
        let wd := max 1 (r.toNat / 8)
        drawLine (drawLine o1 (cx - xc) (cy - xc) (cx + xc) (cy + xc) wd xcol)
          (cx + xc) (cy - xc) (cx - xc) (cy + xc) wd xcol
      else o1
    (o2, s, ⟨false, opt.1, alpha, opt.2.2, cx, cy, r⟩)

/-- The `for _ in range(n)` loop of `draw_accent_shapes`, also collecting the
layout records. -/
def accentLoop (w h : Nat) : Nat → Img → Nat → Img × Nat × List AccentRec
  | 0, overlay, s => (overlay, s, [])
  | n + 1, overlay, s =>
    let r := accentStep w h overlay s
    let rest := accentLoop w h n r.1 r.2.1
    (rest.1, rest.2.1, r.2.2 :: rest.2.2)

/-- `draw_accent_shapes`: the `canvas` parameter is received but the routine
draws only on the overlay. -/
def draw_accent_shapes (_canvas overlay : Img) (w h n : Nat) (s : Nat) :
    Img × Nat × List AccentRec :=
  accentLoop w h n overlay s

-- ── `draw_dot_grid` (lines 246-260) ──

/-- `draw_dot_grid`: Bernoulli-sampled tiny squares on a 28-px lattice
covering the upper 72% of the canvas. -/
def draw_dot_grid (overlay : Img) (w h : Nat) (s : Nat) (density : ℚ)
    (color : RGB) (opacity : ℚ) : Img × Nat :=
  let alpha := (pyInt (opacity * 255)).toNat
  let fill := color.withAlpha alpha
  let cells := (rangeStep w 28).flatMap (fun gx =>
    (rangeStep (pyInt ((h : ℚ) * (72/100))).toNat 28).map (fun gy => (gx, gy)))
  rngFold (fun (im : Img) (s : Nat) (cell : Nat × Nat) =>
      let (t, s) := rngNext s
      (if t < density then
        drawRect im (cell.1 : ℤ) (cell.2 : ℤ) ((cell.1 : ℤ) + 2) ((cell.2 : ℤ) + 2) fill
      else im, s))
    cells overlay s

-- ── `make_synthetic_strip` (lines 264-287) ──

/-- `make_synthetic_strip`: fallback page/book-spine fragment.  The `label`
and `rng` parameters of the source are never used by its body. -/
def make_synthetic_strip (w h : Nat) : Img :=
  let bg : RGB := ⟨232, 224, 214⟩
  let img := newImg w h (bg.withAlpha 255)
  let img := (rangeFrom 20 h 18).foldl
    (fun im y => drawLine im 4 (y : ℤ) ((w : ℤ) - 4) (y : ℤ) 1 ⟨180, 170, 160, 60⟩) img
  let barX : ℤ := ((w : ℤ) / 2) - 9
  let img := drawRect img barX 10 (barX + 18) ((h : ℤ) - 10) (TERRACOTTA.withAlpha 40)
  drawRectOutline img 0 0 ((w : ℤ) - 1) ((h : ℤ) - 1) 1 ⟨180, 170, 160, 120⟩

-- ── `place_strip` (lines 290-299) ──

/-- `place_strip`: rotate with expansion, centre on `(x, y)`, paste. -/
def place_strip (P : Prims) (canvas strip : Img) (x y : ℤ) (angle : ℚ) : Img :=
  let rotated := P.rotate angle strip
  paste canvas rotated (x - (rotated.w / 2 : Nat)) (y - (rotated.h / 2 : Nat))

-- ── loaders / resizers (lines 303-315) ──

/-- `resize_to_height`: uniform scale to a target height.  `ratio` is
`target_h / img.height`; for any image Pillow can decode the height is
positive, so the rational division is never the degenerate `/ 0` case. -/
def resize_to_height (P : Prims) (img : Img) (targetH : Nat) : Img :=
  let ratio : ℚ := (targetH : ℚ) / (img.h : ℚ)
  resizeTo P img (pyInt ((img.w : ℚ) * ratio)).toNat targetH

/-- `resize_to_fit` (`img.thumbnail`): shrink, preserving aspect ratio, to fit
within `max_w × max_h`; an image already within the box is returned as is. -/
def resize_to_fit (P : Prims) (img : Img) (maxW maxH : Nat) : Img :=
  if img.w ≤ maxW ∧ img.h ≤ maxH then img
  else
    let ratio := min ((maxW : ℚ) / (img.w : ℚ)) ((maxH : ℚ) / (img.h : ℚ))
    resizeTo P img (max 1 (pyInt ((img.w : ℚ) * ratio)).toNat)
      (max 1 (pyInt ((img.h : ℚ) * ratio)).toNat)

-- ── `apply_torn_edge` (lines 319-362) ──

/-- One edge pass of the torn-edge mask: for each 3-px strip along the edge,
one rng draw fixing the bite depth `int(lerp(0, edge_width, rng()))`, then a
zero-fill rectangle on the mask. -/
def tornEdgePass (ew : ℚ) (rect : Nat → ℤ → GrayImg → GrayImg)
    (xs : List Nat) (m : GrayImg) (s : Nat) : GrayImg × Nat :=
  rngFold (fun (m : GrayImg) (s : Nat) (x : Nat) =>
      let (t, s) := rngNext s
      (rect x (pyInt (lerp 0 ew t)) m, s))
    xs m s

/-- `apply_torn_edge`: fragments smaller than 40×40 are returned unchanged
(and the rng is not advanced); otherwise a ragged mask is built from the four
edges, blurred, and intersected (pixel-wise `min`) with the alpha channel. -/
def apply_torn_edge (P : Prims) (img : Img) (s : Nat) (edgeWidth : Nat) :
    Img × Nat :=
  if img.w < 40 ∨ img.h < 40 then (img, s)
  else
    let w := img.w
    let h := img.h
    let ew : ℚ := (edgeWidth : ℚ)
    let m := newGray w h 255
    let (m, s) := tornEdgePass ew
      (fun x off mk => drawRectGray mk (x : ℤ) 0 ((x : ℤ) + 3) off 0)
      (rangeStep w 3) m s
    let (m, s) := tornEdgePass ew
      (fun x off mk => drawRectGray mk (x : ℤ) ((h : ℤ) - off) ((x : ℤ) + 3) (h : ℤ) 0)
      (rangeStep w 3) m s
    let (m, s) := tornEdgePass ew
      (fun y off mk => drawRectGray mk 0 (y : ℤ) off ((y : ℤ) + 3) 0)
      (rangeStep h 3) m s
    let (m, s) := tornEdgePass ew
      (fun y off mk => drawRectGray mk ((w : ℤ) - off) (y : ℤ) (w : ℤ) ((y : ℤ) + 3) 0)
      (rangeStep h 3) m s
    let m := P.blurMask m
    ({ img with px := fun x y =>
        let p := img.px x y
        ⟨p.r, p.g, p.b, min p.a (m.px x y)⟩ }, s)

-- ── `apply_vignette` (lines 366-386) ──

/-- `apply_vignette`: 40 concentric elliptical alpha bands, then per-pixel
darkening of the colour channels by `1 - mask * strength`. -/
def apply_vignette (img : Img) (strength : ℚ) : Img :=
  let w := img.w
  let h := img.h
  let mask := (List.range 40).foldl (fun (m : GrayImg) i =>
      let t : ℚ := (i : ℚ) / 40
      let alpha := (pyInt ((1 - t) * strength * 255)).toNat
      let padX := pyInt (t * (w : ℚ) * (49/100))
      let padY := pyInt (t * (h : ℚ) * (49/100))
      let x1 := max (padX + 1) ((w : ℤ) - padX)
      let y1 := max (padY + 1) ((h : ℤ) - padY)
      drawEllipseGray m padX padY x1 y1 alpha)
    (newGray w h 0)
  { img with px := fun x y =>
      let p := img.px x y
      let mq : ℚ := (mask.px x y : ℚ) / 255
      ⟨(pyInt (clamp ((p.r : ℚ) * (1 - mq * strength)) 0 255)).toNat,
       (pyInt (clamp ((p.g : ℚ) * (1 - mq * strength)) 0 255)).toNat,
       (pyInt (clamp ((p.b : ℚ) * (1 - mq * strength)) 0 255)).toNat, p.a⟩ }

-- ── `apply_bottom_fade` (lines 390-407) ──

/-- `apply_bottom_fade`: smoothstep-weighted per-row blend of the bottom rows
toward a target colour. -/
def apply_bottom_fade (img : Img) (fadeStart : ℚ) (target : RGB) : Img :=
  let fadePx := pyInt (fadeStart * (img.h : ℚ))
  { img with px := fun x y =>
      let p := img.px x y
      if fadePx ≤ (y : ℤ) ∧ y < img.h then
        let t0 : ℚ := ((y : ℤ) - fadePx : ℤ) / (max 1 ((img.h : ℤ) - fadePx) : ℤ)
        let t := t0 * t0 * (3 - 2 * t0)
        ⟨(pyInt (clamp ((p.r : ℚ) * (1 - t) + (target.r : ℚ) * t) 0 255)).toNat,
         (pyInt (clamp ((p.g : ℚ) * (1 - t) + (target.g : ℚ) * t) 0 255)).toNat,
         (pyInt (clamp ((p.b : ℚ) * (1 - t) + (target.b : ℚ) * t) 0 255)).toNat, p.a⟩
      else p }

-- ── `color_grade` (lines 411-416) ──

/-- `color_grade`: warm shift — red boosted (clipped), blue reduced. -/
def color_grade (img : Img) (warmth : ℚ) : Img :=
  { img with px := fun x y =>
      let p := img.px x y
      ⟨(pyInt (clamp ((p.r : ℚ) * (1 + warmth)) 0 255)).toNat, p.g,
       (pyInt (clamp ((p.b : ℚ) * (1 - warmth * (1/2))) 0 255)).toNat, p.a⟩ }

/-- `canvas.convert("RGB")`: drop the alpha band (no compositing). -/
def convertRGB (img : Img) : Img :=
  { img with px := fun x y =>
      let p := img.px x y
      ⟨p.r, p.g, p.b, 255⟩ }

-- ── Ground colour resolution (`compose` lines 456-464) ──

/-- One hex digit's value, both cases. -/
def hexDigit? (c : Char) : Option Nat :=
  if '0' ≤ c ∧ c ≤ '9' then some (c.toNat - 48)
  else if 'a' ≤ c ∧ c ≤ 'f' then some (c.toNat - 87)
  else if 'A' ≤ c ∧ c ≤ 'F' then some (c.toNat - 55)
  else none

/-- Python `int(s, 16)` on a slice: `none` models the `ValueError` raised on an
empty slice or a non-hex character.  (CPython additionally accepts surrounding
whitespace, a sign and a `0x` marker; no string examined by any statement
below contains those forms.) -/
def pyIntBase16 (cs : List Char) : Option Nat :=
  match cs with
  | [] => none
  | _ => cs.foldl (fun acc c => do
      let a ← acc
      let d ← hexDigit? c
      pure (a * 16 + d)) (some 0)

/-- The ground branch of `compose`: `"olive"`, `"dark"`, a string starting
with `#` parsed as hex pairs (which raises on malformed hex), and every other
string falling back to the olive ground. -/
def resolveGround (ground : String) : Except String RGB :=
  if ground = "olive" then .ok OLIVE_GROUND
  else if ground = "dark" then .ok HERO_GROUND
  else if ground.data.head? = some '#' then
    let hx := ground.data.dropWhile (· = '#')
    match pyIntBase16 ((hx.drop 0).take 2), pyIntBase16 ((hx.drop 2).take 2),
        pyIntBase16 ((hx.drop 4).take 2) with
    | some r, some g, some b => .ok ⟨r, g, b⟩
    | _, _, _ => .error "ValueError: invalid literal for int() with base 16"
  else .ok OLIVE_GROUND

-- ── `compose` configuration and file system ──

/-- The caller-supplied style configuration of `compose` (keyword arguments,
lines 425-431). -/
structure Config where
  canvas_size : Nat × Nat
  ground : String
  fade_to_parchment : Bool
  grain : Bool
  vignette : Bool
  torn_edges : Bool

/-- The default keyword arguments of `compose`. -/
def defaultConfig : Config := ⟨(1200, 750), "olive", true, true, true, true⟩

/-- The read-only file system: a path either decodes to an image or is
absent (`Path(p).exists()` = `isSome`). -/
abbrev FS : Type := String → Option Img

-- ── Support placement zones (`compose` lines 514-521) ──

/-- One positional zone: fractional x/y bounds and a height-fraction range. -/
structure Zone where
  xLo : ℚ
  xHi : ℚ
  yLo : ℚ
  yHi : ℚ
  scLo : ℚ
  scHi : ℚ

/-- The fixed ordered list of five support placement zones. -/
def support_positions : List Zone :=
  [⟨2/100, 32/100, -5/100, 35/100, 22/100, 40/100⟩,
   ⟨65/100, 95/100, -2/100, 30/100, 20/100, 38/100⟩,
   ⟨0, 25/100, 30/100, 58/100, 18/100, 34/100⟩,
   ⟨72/100, 98/100, 28/100, 55/100, 18/100, 32/100⟩,
   ⟨30/100, 55/100, 48/100, 66/100, 16/100, 30/100⟩]

-- ── Strip layer (`compose` lines 486-507) ──

/-- One iteration of the strip loop: width/height draws, a real strip image
when index `i` has an existing backing file, otherwise the synthetic
fallback; optional torn edge; angle/position draws; rotated paste. -/
def stripStep (P : Prims) (tornEdges : Bool) (w h : Nat) (fs : FS)
    (strips : List String) (i : Nat) (canvas : Img) (s : Nat) : Img × Nat :=
  let (t1, s) := rngNext s
  let stripW := (pyInt (lerp ((w : ℚ) * (6/100)) ((w : ℚ) * (14/100)) t1)).toNat
  let (t2, s) := rngNext s
  let stripH := (pyInt (lerp ((h : ℚ) * (55/100)) ((h : ℚ) * (90/100)) t2)).toNat
  let stripImg :=
    match if hi : i < strips.length then fs (strips.get ⟨i, hi⟩) else none with
    | some img => resize_to_fit P img (stripW * 2) stripH
    | none => make_synthetic_strip stripW stripH
  let r := if tornEdges then apply_torn_edge P stripImg s 8 else (stripImg, s)
  let stripImg := r.1
  let s := r.2
  let (t3, s) := rngNext s
  let angle := lerp (-12) 12 t3
  let (t4, s) := rngNext s
  let sx := pyInt (lerp ((w : ℚ) * (-5/100)) ((w : ℚ) * (85/100)) t4)
  let (t5, s) := rngNext s
  let sy := pyInt (lerp (-(stripH : ℚ) * (35/100)) ((h : ℚ) * (15/100)) t5)
  (place_strip P canvas stripImg sx sy angle, s)

/-- The strip loop: `n_strips = max(2, len(strips) + 1)` iterations. -/
def stripLoop (P : Prims) (tornEdges : Bool) (w h : Nat) (fs : FS)
    (strips : List String) (canvas : Img) (s : Nat) : Img × Nat :=
  rngFold (fun c s i => stripStep P tornEdges w h fs strips i c s)
    (List.range (max 2 (strips.length + 1))) canvas s

-- ── Support layer (`compose` lines 523-544) ──

/-- The body of the support loop for list index `i` with an existing file:
the zone is `support_positions[i % len(support_positions)]`. -/
def supportStep (P : Prims) (tornEdges : Bool) (w h : Nat) (i : Nat)
    (img : Img) (canvas : Img) (s : Nat) : Img × Nat :=
  let pos := support_positions.get
    ⟨i % support_positions.length, Nat.mod_lt _ (by decide)⟩
  let (t1, s) := rngNext s
  let targetH := (pyInt (lerp ((h : ℚ) * pos.scLo) ((h : ℚ) * pos.scHi) t1)).toNat
  let simg := resize_to_height P img targetH
  let r := if tornEdges then apply_torn_edge P simg s 10 else (simg, s)
  let simg := r.1
  let s := r.2
  let (t2, s) := rngNext s
  let cx := pyInt (lerp ((w : ℚ) * pos.xLo) ((w : ℚ) * pos.xHi) t2)
  let (t3, s) := rngNext s
  let cy := pyInt (lerp ((h : ℚ) * pos.yLo) ((h : ℚ) * pos.yHi) t3)
  let (t4, s) := rngNext s
  let angle := lerp (-10) 10 t4
  let rotated := P.rotate angle simg
  (paste canvas rotated (cx - (rotated.w / 2 : Nat)) (cy - (rotated.h / 2 : Nat)), s)

/-- The support loop (`for i, img_path in enumerate(supports)`): a path whose
file is missing is skipped (`continue`) without drawing or advancing the rng;
the returned trace lists, for each placed support, its list index together
with the zone index used for it. -/
def supportLoop (P : Prims) (tornEdges : Bool) (w h : Nat) (fs : FS) :
    List String → Nat → Img → Nat → Img × Nat × List (Nat × Nat)
  | [], _, canvas, s => (canvas, s, [])
  | p :: rest, i, canvas, s =>
    match fs p with
    | none => supportLoop P tornEdges w h fs rest (i + 1) canvas s
    | some img =>
      let r := supportStep P tornEdges w h i img canvas s
      let out := supportLoop P tornEdges w h fs rest (i + 1) r.1 r.2
      (out.1, out.2.1, (i, i % support_positions.length) :: out.2.2)

/-- The zone assignment as the spec words it: the support at list index `i`
uses zone `i % 5`, and a missing file is skipped without consuming a zone
slot from later supports (used to state claims C3/C4 against `supportLoop`). -/
def supportZoneSpec (fs : FS) : List String → Nat → List (Nat × Nat)
  | [], _ => []
  | p :: rest, i =>
    if (fs p).isSome then (i, i % 5) :: supportZoneSpec fs rest (i + 1)
    else supportZoneSpec fs rest (i + 1)

-- ── Hero layer (`compose` lines 547-568) ──

/-- The hero stage: skipped when no hero path is supplied (`if hero` is also
false for the empty string) or its file is missing. -/
def heroStage (P : Prims) (tornEdges : Bool) (w h : Nat) (fs : FS)
    (hero : Option String) (canvas : Img) (s : Nat) : Img × Nat :=
  match hero with
  | none => (canvas, s)
  | some hp =>
    if hp = "" then (canvas, s)
    else
      match fs hp with
      | none => (canvas, s)
      | some img =>
        let (t1, s) := rngNext s
        let heroH := (pyInt (lerp ((h : ℚ) * (50/100)) ((h : ℚ) * (65/100)) t1)).toNat
        let heroImg := resize_to_height P img heroH
        let r := if tornEdges then apply_torn_edge P heroImg s 14 else (heroImg, s)
        let heroImg := r.1
        let s := r.2
        let (t2, s) := rngNext s
        let heroCx := pyInt (lerp ((w : ℚ) * (38/100)) ((w : ℚ) * (58/100)) t2)
        let (t3, s) := rngNext s
        let heroCy := pyInt (lerp ((h : ℚ) * (26/100)) ((h : ℚ) * (42/100)) t3)
        let (t4, s) := rngNext s
        let heroAngle := lerp (-3) 3 t4
        let heroRot := P.rotate heroAngle heroImg
        (paste canvas heroRot (heroCx - (heroRot.w / 2 : Nat))
          (heroCy - (heroRot.h / 2 : Nat)), s)

-- ── Colour-block stage (`compose` lines 479-483) ──

/-- Stage 3 of `compose`: fresh transparent overlay, `n_blocks` draw,
`draw_color_blocks`, then the alpha-composite of the overlay. -/
def blockStage (P : Prims) (canvas : Img) (w h : Nat) (s : Nat) : Img × Nat :=
  let blockOverlay := newImg w h ⟨0, 0, 0, 0⟩
  let (t, s) := rngNext s
  let nBlocks := (pyInt (lerp 3 6 t)).toNat
  let r := draw_color_blocks P canvas blockOverlay w h nBlocks s
  (alphaComposite r.1 r.2.1, r.2.2)

-- ── Post-processing (`compose` lines 590-607) ──

/-- Stages 10-14: flatten to RGB, optional vignette, optional grain (which
re-seeds the global numpy generator from the slug hash: `np.random.seed(
_hash_str(slug) % 2**31)` and then samples it), warm grade, optional bottom
fade.  Threads the numpy global state. -/
def postProcess (P : Prims) (cfg : Config) (slug : String) (canvas : Img)
    (np : Nat) : Img × Nat :=
  let result := convertRGB canvas
  let result := if cfg.vignette then apply_vignette result (35/100) else result
  let gr := if cfg.grain then
      add_grain P (P.npSeed (hash_str slug % 2 ^ 31)) result (25/1000)
    else (result, np)
  let result := color_grade gr.1 (5/100)
  let result := if cfg.fade_to_parchment then
      apply_bottom_fade result (70/100) PARCHMENT
    else result
  (result, gr.2)

-- ── `compose` (lines 420-614) ──

/-- Stages 1-9 of `compose` after the ground colour is resolved: the layered
canvas before post-processing.  Only the explicit per-call rng (seeded from
the slug, line 450) threads through these stages. -/
def composeCanvas (P : Prims) (fs : FS) (slug : String) (hero : Option String)
    (supports strips : List String) (cfg : Config) (bgColor : RGB) : Img :=
  let s0 := make_rng slug
  let w := cfg.canvas_size.1
  let h := cfg.canvas_size.2
  let canvas := newImg w h (bgColor.withAlpha 255)
  let gridOverlay :=
    draw_blueprint_grid (newImg w h ⟨0, 0, 0, 0⟩) w h 40 (5/100) ⟨255, 255, 255⟩
  let canvas := alphaComposite canvas gridOverlay
  let dot := draw_dot_grid (newImg w h ⟨0, 0, 0, 0⟩) w h s0 (12/100) NEAR_BLACK (5/10)
  let canvas := alphaComposite canvas dot.1
  let blk := blockStage P canvas w h dot.2
  let st := stripLoop P cfg.torn_edges w h fs strips blk.1 blk.2
  let sup := supportLoop P cfg.torn_edges w h fs supports 0 st.1 st.2
  let hr := heroStage P cfg.torn_edges w h fs hero sup.1 sup.2.1
  let g1 := rngNext hr.2
  let nGest := (pyInt (lerp 2 5 g1.1)).toNat
  let gest := draw_gesture_lines (newImg w h ⟨0, 0, 0, 0⟩) w h nGest g1.2
    TERRACOTTA_LITE (30/100)
  let canvas := alphaComposite hr.1 gest.1
  let k1 := rngNext gest.2
  let nSketch := (pyInt (lerp 4 8 k1.1)).toNat
  let sk := draw_sketch_lines (newImg w h ⟨0, 0, 0, 0⟩) w h nSketch k1.2
    CREAM (12/100)
  let canvas := alphaComposite canvas sk.1
  let a1 := rngNext sk.2
  let nAcc := (pyInt (lerp 7 12 a1.1)).toNat
  let acc := draw_accent_shapes canvas (newImg w h ⟨0, 0, 0, 0⟩) w h nAcc a1.2
  alphaComposite canvas acc.1

/-- The top-level orchestrator.  Inputs: the external library routines `P`,
the read-only file system `fs`, the call arguments, and the ambient global
numpy RNG state `np` (the process-wide `np.random` state at call time).
Output: the composed raster together with the numpy global state after the
call, or the propagated exception.  Saving the raster to `output` is file
I/O outside the model. -/
def compose (P : Prims) (fs : FS) (slug : String) (hero : Option String)
    (supports strips : List String) (cfg : Config) (np : Nat) :
    Except String (Img × Nat) :=
  match resolveGround cfg.ground with
  | .error e => .error e
  | .ok bgColor =>
    .ok (postProcess P cfg slug
      (composeCanvas P fs slug hero supports strips cfg bgColor) np)

/-- A concrete instantiation of the external library routines, used to
instantiate universally quantified theorems at specific inputs: rotation
keeps the raster, resampling yields transparent pixels, blur keeps the mask,
and the numpy generator advances its state on every seed/sample (as the real
global generator does). -/
def trivialPrims : Prims where
  rotate := fun _ img => img
  resample := fun _ _ _ _ _ => ⟨0, 0, 0, 0⟩
  blurMask := fun m => m
  npSeed := fun n => n + 1
  npNormal := fun _ s => (fun _ _ => 0, s + 1)

/-! ## Lemmas and claim theorems -/

/-- Extensionality for rasters. -/
theorem Img.ext' {i j : Img} (hw : i.w = j.w) (hh : i.h = j.h)
    (hp : ∀ x y, i.px x y = j.px x y) : i = j := by
  cases i; cases j
  simp only [Img.w, Img.h] at hw hh
  subst hw; subst hh
  simp only [Img.mk.injEq, true_and]
  funext x y
  exact hp x y

/-- Every value the rng closure returns is nonnegative. -/
theorem rngFloat_nonneg (s : Nat) : 0 ≤ rngFloat s := by
  unfold rngFloat
  positivity

/-- Every value the rng closure returns is strictly below 1: the masked state
is below `2^32` and is divided by `2^32`. -/
theorem rngFloat_lt_one (s : Nat) : rngFloat s < 1 := by
  unfold rngFloat
  rw [div_lt_one (by positivity)]
  have h : rngStep s % 2 ^ 32 < 2 ^ 32 := Nat.mod_lt _ (by norm_num)
  calc ((rngStep s % 2 ^ 32 : Nat) : ℚ) < ((2 ^ 32 : Nat) : ℚ) := by
        exact_mod_cast h
    _ = (2 : ℚ) ^ 32 := by push_cast; ring

/-- `pyInt` of a nonnegative rational is its floor. -/
theorem pyInt_of_nonneg {q : ℚ} (hq : 0 ≤ q) : pyInt q = ⌊q⌋ := if_pos hq

/-- `pyInt` of a nonnegative rational is nonnegative. -/
theorem pyInt_nonneg {q : ℚ} (hq : 0 ≤ q) : 0 ≤ pyInt q := by
  rw [pyInt_of_nonneg hq]
  exact Int.floor_nonneg.2 hq

/-- `pyInt` does not exceed its nonnegative argument. -/
theorem pyInt_le {q : ℚ} (hq : 0 ≤ q) : (pyInt q : ℚ) ≤ q := by
  rw [pyInt_of_nonneg hq]
  exact Int.floor_le q

/-- `lerp a b t` stays within `[a, b]` for `t ∈ [0, 1)` and `a ≤ b`. -/
theorem lerp_bounds {a b t : ℚ} (hab : a ≤ b) (h0 : 0 ≤ t) (h1 : t < 1) :
    a ≤ lerp a b t ∧ lerp a b t ≤ b := by
  unfold lerp
  constructor
  · nlinarith
  · nlinarith

/-- The index computed by `pick` is in range for a non-empty list. -/
theorem pickIdx_lt {n : Nat} (hn : 0 < n) (s : Nat) : (pickIdx n s).1 < n := by
  unfold pickIdx
  have h0 : (0 : ℚ) ≤ rngFloat s * n := by
    have := rngFloat_nonneg s
    positivity
  have hlt : rngFloat s * n < n := by
    have h1 := rngFloat_lt_one s
    have hn' : (0 : ℚ) < n := by exact_mod_cast hn
    nlinarith
  have hfl : pyInt (rngFloat s * n) < (n : ℤ) := by
    rw [pyInt_of_nonneg h0]
    exact Int.floor_lt.2 (by exact_mod_cast hlt)
  have hge := pyInt_nonneg h0
  omega

/-- C10: for every rng state and every non-empty list, the rng value lies in
`[0, 1)`, the index `int(rng() * len(lst))` computed by `pick` lies within
the list, and `pick` returns an element of the list — no out-of-bounds
indexing. -/
theorem pick_in_bounds {α : Type} (lst : List α) (s : Nat) (h : lst ≠ []) :
    0 ≤ rngFloat s ∧ rngFloat s < 1 ∧ (pickIdx lst.length s).1 < lst.length ∧
      (pick lst s h).1 ∈ lst := by
  have hn : 0 < lst.length := List.length_pos.2 h
  have hidx := pickIdx_lt hn s
  refine ⟨rngFloat_nonneg s, rngFloat_lt_one s, hidx, ?_⟩
  unfold pick
  dsimp only
  rw [List.getD_eq_getElem lst _ hidx]
  exact List.getElem_mem hidx

/-- Witness for C10 at a concrete list and state. -/
theorem pick_in_bounds_witness :
    0 ≤ rngFloat 0 ∧ rngFloat 0 < 1 ∧ (pickIdx 3 0).1 < 3 ∧
      (pick [10, 20, 30] 0 (by decide)).1 ∈ [10, 20, 30] :=
  pick_in_bounds [10, 20, 30] 0 (by decide)

/-- C5: `apply_torn_edge` on a fragment smaller than 40×40 returns the
fragment unchanged and does not advance the rng state. -/
theorem apply_torn_edge_small_noop (P : Prims) (img : Img) (s ew : Nat)
    (hsmall : img.w < 40 ∨ img.h < 40) :
    apply_torn_edge P img s ew = (img, s) := by
  unfold apply_torn_edge
  rw [if_pos hsmall]

/-- Witness for C5 on a concrete 10×10 fragment. -/
theorem apply_torn_edge_small_noop_witness :
    ((newImg 10 10 ⟨1, 2, 3, 4⟩).w < 40 ∨ (newImg 10 10 ⟨1, 2, 3, 4⟩).h < 40) ∧
      apply_torn_edge trivialPrims (newImg 10 10 ⟨1, 2, 3, 4⟩) 5 12
        = (newImg 10 10 ⟨1, 2, 3, 4⟩, 5) :=
  ⟨Or.inl (by decide),
   apply_torn_edge_small_noop trivialPrims (newImg 10 10 ⟨1, 2, 3, 4⟩) 5 12
     (Or.inl (by decide))⟩

/-- `compose` depends on the ground string only through `resolveGround`. -/
theorem compose_ground_congr (P : Prims) (fs : FS) (slug : String)
    (hero : Option String) (supports strips : List String)
    (cs : Nat × Nat) (fade gr vig te : Bool) (g1 g2 : String) (np : Nat)
    (h : resolveGround g1 = resolveGround g2) :
    compose P fs slug hero supports strips ⟨cs, g1, fade, gr, vig, te⟩ np
      = compose P fs slug hero supports strips ⟨cs, g2, fade, gr, vig, te⟩ np := by
  unfold compose composeCanvas postProcess
  dsimp only
  rw [h]

/-- `resolveGround` on a string that is neither `"olive"` nor `"dark"` nor
`#`-prefixed falls through to the olive default. -/
theorem resolveGround_fallback (g : String) (h1 : g ≠ "olive") (h2 : g ≠ "dark")
    (h3 : g.data.head? ≠ some '#') : resolveGround g = Except.ok OLIVE_GROUND := by
  unfold resolveGround
  rw [if_neg h1, if_neg h2, if_neg h3]

/-- C2 (amended): a ground string that is not `"olive"`, not `"dark"` and does
not start with `"#"` makes `compose` behave exactly as with the default
olive ground — the malformed value falls back without raising.  (Strings
that do start with `"#"` but are not valid hex raise instead; see the
counterexample.) -/
theorem compose_ground_fallback (P : Prims) (fs : FS) (slug : String)
    (hero : Option String) (supports strips : List String)
    (cs : Nat × Nat) (fade gr vig te : Bool) (g : String) (np : Nat)
    (h1 : g ≠ "olive") (h2 : g ≠ "dark") (h3 : g.data.head? ≠ some '#') :
    compose P fs slug hero supports strips ⟨cs, g, fade, gr, vig, te⟩ np
      = compose P fs slug hero supports strips ⟨cs, "olive", fade, gr, vig, te⟩ np :=
  compose_ground_congr P fs slug hero supports strips cs fade gr vig te g "olive" np
    (by rw [resolveGround_fallback g h1 h2 h3]; rfl)

/-- Witness for C2 (amended) at the concrete ground string `"parchment"`. -/
theorem compose_ground_fallback_witness :
    ("parchment" ≠ "olive") ∧ ("parchment" ≠ "dark") ∧
      (("parchment").data.head? ≠ some '#') ∧
      compose trivialPrims (fun _ => none) "w" none [] []
          ⟨(8, 8), "parchment", true, true, true, true⟩ 0
        = compose trivialPrims (fun _ => none) "w" none [] []
          ⟨(8, 8), "olive", true, true, true, true⟩ 0 :=
  ⟨by decide, by decide, by decide,
   compose_ground_fallback trivialPrims (fun _ => none) "w" none [] []
     (8, 8) true true true true "parchment" 0 (by decide) (by decide) (by decide)⟩

/-- Counterexample to C2 as stated: the malformed ground string `"#GG0000"`
(not a well-formed `#RRGGBB` colour) does not fall back — `int(hx[0:2], 16)`
raises `ValueError`, which `compose` propagates. -/
theorem compose_malformed_hex_raises_cex :
    compose trivialPrims (fun _ => none) "slug" none [] []
        ⟨(1200, 750), "#GG0000", true, true, true, true⟩ 0
      = Except.error "ValueError: invalid literal for int() with base 16" := rfl

theorem support_positions_length : support_positions.length = 5 := rfl

/-- The support loop's placement trace equals the index-based zone
specification, for every file system, canvas, rng state and starting index. -/
theorem supportLoop_trace (P : Prims) (te : Bool) (w h : Nat) (fs : FS) :
    ∀ (supports : List String) (i0 : Nat) (canvas : Img) (s : Nat),
      (supportLoop P te w h fs supports i0 canvas s).2.2
        = supportZoneSpec fs supports i0 := by
  intro supports
  induction supports with
  | nil => intro i0 canvas s; rfl
  | cons p rest ih =>
    intro i0 canvas s
    unfold supportLoop supportZoneSpec
    cases hfs : fs p with
    | none => simp [hfs, ih]
    | some img => simp [hfs, ih, support_positions_length]

/-- Every pair in the zone specification pairs an index with that index
mod 5. -/
theorem supportZoneSpec_forall (fs : FS) :
    ∀ (l : List String) (i0 : Nat) (pr : Nat × Nat),
      pr ∈ supportZoneSpec fs l i0 → pr.2 = pr.1 % 5 := by
  intro l
  induction l with
  | nil => intro i0 pr hpr; simp [supportZoneSpec] at hpr
  | cons p rest ih =>
    intro i0 pr hpr
    unfold supportZoneSpec at hpr
    by_cases hfs : (fs p).isSome
    · rw [if_pos hfs] at hpr
      rcases List.mem_cons.1 hpr with h | h
      · subst h; rfl
      · exact ih _ _ h
    · rw [if_neg hfs] at hpr
      exact ih _ _ hpr

/-- Indices recorded by the zone specification are at least the start index. -/
theorem supportZoneSpec_idx_ge (fs : FS) :
    ∀ (l : List String) (i0 : Nat) (pr : Nat × Nat),
      pr ∈ supportZoneSpec fs l i0 → i0 ≤ pr.1 := by
  intro l
  induction l with
  | nil => intro i0 pr hpr; simp [supportZoneSpec] at hpr
  | cons p rest ih =>
    intro i0 pr hpr
    unfold supportZoneSpec at hpr
    by_cases hfs : (fs p).isSome
    · rw [if_pos hfs] at hpr
      rcases List.mem_cons.1 hpr with h | h
      · subst h; exact le_refl _
      · exact le_trans (Nat.le_succ _) (ih _ _ h)
    · rw [if_neg hfs] at hpr
      exact le_trans (Nat.le_succ _) (ih _ _ hpr)

/-- A support whose file exists appears in the zone specification with zone
`index % 5`. -/
theorem supportZoneSpec_mem (fs : FS) :
    ∀ (l : List String) (i0 i : Nat) (hi : i < l.length),
      (fs (l.get ⟨i, hi⟩)).isSome →
        (i0 + i, (i0 + i) % 5) ∈ supportZoneSpec fs l i0 := by
  intro l
  induction l with
  | nil => intro i0 i hi; exact absurd hi (by simp)
  | cons p rest ih =>
    intro i0 i hi hex
    unfold supportZoneSpec
    cases i with
    | zero =>
      simp only [List.get] at hex
      rw [if_pos hex]
      simp
    | succ j =>
      have hj : j < rest.length := by simpa using hi
      have := ih (i0 + 1) j hj (by simpa using hex)
      have harith : i0 + 1 + j = i0 + (j + 1) := by omega
      rw [harith] at this
      by_cases hfs : (fs p).isSome
      · rw [if_pos hfs]; exact List.mem_cons_of_mem _ this
      · rw [if_neg hfs]; exact this

/-- A support whose file is missing contributes no placement at its index. -/
theorem supportZoneSpec_not_mem (fs : FS) :
    ∀ (l : List String) (i0 i : Nat) (hi : i < l.length),
      fs (l.get ⟨i, hi⟩) = none →
        ∀ z, (i0 + i, z) ∉ supportZoneSpec fs l i0 := by
  intro l
  induction l with
  | nil => intro i0 i hi; exact absurd hi (by simp)
  | cons p rest ih =>
    intro i0 i hi hmiss z hmem
    unfold supportZoneSpec at hmem
    cases i with
    | zero =>
      simp only [List.get] at hmiss
      rw [if_neg (by simp [hmiss])] at hmem
      have := supportZoneSpec_idx_ge fs rest (i0 + 1) _ hmem
      simp at this
    | succ j =>
      have hj : j < rest.length := by simpa using hi
      have hnot := ih (i0 + 1) j hj (by simpa using hmiss) z
      have harith : i0 + (j + 1) = i0 + 1 + j := by omega
      rw [harith] at hmem
      by_cases hfs : (fs p).isSome
      · rw [if_pos hfs] at hmem
        rcases List.mem_cons.1 hmem with h | h
        · have : i0 + 1 + j = i0 := congrArg Prod.fst h
          omega
        · exact hnot h
      · rw [if_neg hfs] at hmem
        exact hnot hmem

/-- C3: the support placement trace is exactly the index-based specification:
the support at list index `i` is placed with zone `i % 5` out of the 5 fixed
zones; every recorded zone index is below the zone count, so any number of
supplied supports (e.g. 7 against 5 zones) wraps instead of indexing out of
bounds. -/
theorem support_zone_wrap (P : Prims) (te : Bool) (w h : Nat) (fs : FS)
    (supports : List String) (canvas : Img) (s : Nat) :
    support_positions.length = 5 ∧
      (supportLoop P te w h fs supports 0 canvas s).2.2
        = supportZoneSpec fs supports 0 ∧
      ∀ pr ∈ (supportLoop P te w h fs supports 0 canvas s).2.2,
        pr.2 = pr.1 % 5 ∧ pr.2 < support_positions.length := by
  refine ⟨rfl, supportLoop_trace P te w h fs supports 0 canvas s, ?_⟩
  intro pr hpr
  rw [supportLoop_trace P te w h fs supports 0 canvas s] at hpr
  have h5 := supportZoneSpec_forall fs supports 0 pr hpr
  exact ⟨h5, by rw [h5, support_positions_length]; exact Nat.mod_lt _ (by norm_num)⟩

/-- Witness for C3: seven supplied support paths, all existing, place at
zones `0 1 2 3 4 0 1` — the placement wraps and never indexes out of
bounds. -/
theorem support_zone_wrap_witness :
    (supportLoop trivialPrims true 100 100
        (fun _ => some (newImg 50 50 ⟨0, 0, 0, 255⟩))
        ["a", "b", "c", "d", "e", "f", "g"] 0 (newImg 100 100 ⟨0, 0, 0, 255⟩) 0).2.2
      = [(0, 0), (1, 1), (2, 2), (3, 3), (4, 4), (5, 0), (6, 1)] :=
  ((support_zone_wrap trivialPrims true 100 100
      (fun _ => some (newImg 50 50 ⟨0, 0, 0, 255⟩))
      ["a", "b", "c", "d", "e", "f", "g"]
      (newImg 100 100 ⟨0, 0, 0, 255⟩) 0).2.1).trans (by decide)

/-- C4: a support path whose file exists is placed with zone `index % 5`
regardless of the file system (so a skipped entry never shifts another
support's zone), and a support path whose file is missing is silently
skipped — it contributes no placement at all, and the loop is total, so
composition continues. -/
theorem support_missing_skipped (P : Prims) (te : Bool) (w h : Nat)
    (supports : List String) (fs fs' : FS) (canvas canvas' : Img) (s s' : Nat)
    (i : Nat) (hi : i < supports.length)
    (hex : (fs (supports.get ⟨i, hi⟩)).isSome)
    (hmiss : fs' (supports.get ⟨i, hi⟩) = none) :
    (i, i % 5) ∈ (supportLoop P te w h fs supports 0 canvas s).2.2 ∧
      ∀ z, (i, z) ∉ (supportLoop P te w h fs' supports 0 canvas' s').2.2 := by
  constructor
  · rw [supportLoop_trace P te w h fs supports 0 canvas s]
    have := supportZoneSpec_mem fs supports 0 i hi hex
    simpa using this
  · intro z
    rw [supportLoop_trace P te w h fs' supports 0 canvas' s']
    have := supportZoneSpec_not_mem fs' supports 0 i hi hmiss z
    simpa using this

/-- Witness for C4: with `"b"` missing, the support `"c"` at index 2 is still
placed in zone `2 % 5 = 2`; with its own file missing, index 2 yields no
placement. -/
theorem support_missing_skipped_witness :
    ((fun p => if p = "b" then none else some (newImg 50 50 ⟨0, 0, 0, 255⟩) : FS)
        (["a", "b", "c"].get ⟨2, by decide⟩)).isSome ∧
      ((fun _ => none : FS) (["a", "b", "c"].get ⟨2, by decide⟩)) = none ∧
      (2, 2 % 5) ∈ (supportLoop trivialPrims true 100 100
        (fun p => if p = "b" then none else some (newImg 50 50 ⟨0, 0, 0, 255⟩))
        ["a", "b", "c"] 0 (newImg 100 100 ⟨0, 0, 0, 255⟩) 0).2.2 ∧
      ∀ z, (2, z) ∉ (supportLoop trivialPrims true 100 100 (fun _ => none)
        ["a", "b", "c"] 0 (newImg 100 100 ⟨0, 0, 0, 255⟩) 7).2.2 := by
  have h := support_missing_skipped trivialPrims true 100 100 ["a", "b", "c"]
    (fun p => if p = "b" then none else some (newImg 50 50 ⟨0, 0, 0, 255⟩))
    (fun _ => none) (newImg 100 100 ⟨0, 0, 0, 255⟩) (newImg 100 100 ⟨0, 0, 0, 255⟩)
    0 7 2 (by decide) (by decide) rfl
  exact ⟨by decide, rfl, h.1, h.2⟩

/-- The output raster of the post-processing stage does not depend on the
ambient numpy global state: the grain branch re-seeds before sampling, and
with grain disabled the global generator is never consulted. -/
theorem postProcess_fst_indep (P : Prims) (cfg : Config) (slug : String)
    (canvas : Img) (np1 np2 : Nat) :
    (postProcess P cfg slug canvas np1).1 = (postProcess P cfg slug canvas np2).1 := by
  unfold postProcess
  rcases h : cfg.grain <;> simp [h]

/-- C1: the output raster of `compose` is a pure function of the explicit
arguments (slug, fragment paths, configuration, file contents, library
routines) — it is independent of the ambient global numpy RNG state, the
only hidden state the engine touches, so two invocations with identical
arguments and files produce identical rasters. -/
theorem compose_deterministic_in_global_rng (P : Prims) (fs : FS) (slug : String)
    (hero : Option String) (supports strips : List String) (cfg : Config)
    (np1 np2 : Nat) :
    (compose P fs slug hero supports strips cfg np1).map Prod.fst
      = (compose P fs slug hero supports strips cfg np2).map Prod.fst := by
  rcases hres : resolveGround cfg.ground with e | bg
  · simp [compose, hres]
  · simp [compose, hres, Except.map, postProcess_fst_indep P cfg slug _ np1 np2]

/-- C9 (amended): `compose` does mutate one process-global singleton — the
numpy RNG — but only in the grain stage: with `grain=False` the global state
passes through untouched, and with `grain=True` the stage overwrites it with
a value seeded from the slug hash, independent of the incoming state.  All
layout randomness comes from the explicit per-call rng closure. -/
theorem compose_numpy_global_semantics (P : Prims) (fs : FS) (slug : String)
    (hero : Option String) (supports strips : List String) (cs : Nat × Nat)
    (g : String) (fade vig torn : Bool) (bg : RGB) (np np1 np2 : Nat)
    (hg : resolveGround g = .ok bg) :
    (compose P fs slug hero supports strips ⟨cs, g, fade, false, vig, torn⟩ np).map
        Prod.snd = .ok np ∧
      (compose P fs slug hero supports strips ⟨cs, g, fade, true, vig, torn⟩ np1).map
          Prod.snd
        = (compose P fs slug hero supports strips ⟨cs, g, fade, true, vig, torn⟩
            np2).map Prod.snd := by
  constructor
  · simp [compose, hg, Except.map, postProcess]
  · simp [compose, hg, Except.map, postProcess]

/-- Witness for C9 (amended) at a concrete configuration. -/
theorem compose_numpy_global_semantics_witness :
    resolveGround "dark" = .ok HERO_GROUND ∧
      (compose trivialPrims (fun _ => none) "w" none [] []
          ⟨(8, 8), "dark", true, false, true, true⟩ 41).map Prod.snd = .ok 41 ∧
      (compose trivialPrims (fun _ => none) "w" none [] []
          ⟨(8, 8), "dark", true, true, true, true⟩ 41).map Prod.snd
        = (compose trivialPrims (fun _ => none) "w" none [] []
          ⟨(8, 8), "dark", true, true, true, true⟩ 97).map Prod.snd := by
  have h := compose_numpy_global_semantics trivialPrims (fun _ => none) "w" none [] []
    (8, 8) "dark" true true true HERO_GROUND 41 41 97 rfl
  exact ⟨rfl, h.1, h.2⟩

/-- Counterexample to C9 as stated: with the default configuration
(`grain=True`), `compose` writes the process-global numpy RNG state — the
state after the call (here `_hash_str("a") % 2^31` seeded and advanced by
one sample) differs from the state before the call. -/
theorem compose_writes_numpy_global_cex :
    (compose trivialPrims (fun _ => none) "a" none [] [] defaultConfig 0).map
        Prod.snd ≠ Except.ok 0 := by
  have h : (compose trivialPrims (fun _ => none) "a" none [] [] defaultConfig 0).map
      Prod.snd = Except.ok (hash_str "a" % 2 ^ 31 + 2) := rfl
  rw [h]
  intro hc
  injection hc with h2
  omega

/-- Invariant preservation through a plain fold. -/
theorem foldl_inv {β α : Type} (Inv : β → Prop) (f : β → α → β)
    (hf : ∀ b a, Inv b → Inv (f b a)) :
    ∀ (xs : List α) (b : β), Inv b → Inv (xs.foldl f b) := by
  intro xs
  induction xs with
  | nil => intro b hb; exact hb
  | cons x rest ih => intro b hb; exact ih _ (hf b x hb)

/-- Invariant preservation through an rng-threading fold. -/
theorem rngFold_inv {β α : Type} (Inv : β → Prop) (f : β → Nat → α → β × Nat)
    (hf : ∀ b s a, Inv b → Inv (f b s a).1) :
    ∀ (xs : List α) (b : β) (s : Nat), Inv b → Inv ((rngFold f xs b s).1) := by
  intro xs
  induction xs with
  | nil => intro b s hb; exact hb
  | cons x rest ih => intro b s hb; exact ih _ _ (hf b s x hb)

-- Dimension preservation of the canvas-modifying operations.

theorem newImg_w (w h : Nat) (c : RGBA) : (newImg w h c).w = w := rfl
theorem newImg_h (w h : Nat) (c : RGBA) : (newImg w h c).h = h := rfl

theorem alphaComposite_w (u o : Img) : (alphaComposite u o).w = u.w := rfl
theorem alphaComposite_h (u o : Img) : (alphaComposite u o).h = u.h := rfl

theorem paste_w (c s : Img) (x y : ℤ) : (paste c s x y).w = c.w := rfl
theorem paste_h (c s : Img) (x y : ℤ) : (paste c s x y).h = c.h := rfl

theorem colorBlockStep_w (P : Prims) (w h : Nat) (c : Img) (s i : Nat) :
    (colorBlockStep P w h c s i).1.w = c.w := rfl
theorem colorBlockStep_h (P : Prims) (w h : Nat) (c : Img) (s i : Nat) :
    (colorBlockStep P w h c s i).1.h = c.h := rfl

theorem draw_color_blocks_w (P : Prims) (c o : Img) (w h n s : Nat) :
    (draw_color_blocks P c o w h n s).1.w = c.w := by
  unfold draw_color_blocks
  exact rngFold_inv (fun img => img.w = c.w) (colorBlockStep P w h)
    (fun b s' a hb => (colorBlockStep_w P w h b s' a).trans hb) (List.range n) c s rfl

theorem draw_color_blocks_h (P : Prims) (c o : Img) (w h n s : Nat) :
    (draw_color_blocks P c o w h n s).1.h = c.h := by
  unfold draw_color_blocks
  exact rngFold_inv (fun img => img.h = c.h) (colorBlockStep P w h)
    (fun b s' a hb => (colorBlockStep_h P w h b s' a).trans hb) (List.range n) c s rfl

theorem blockStage_w (P : Prims) (c : Img) (w h s : Nat) :
    (blockStage P c w h s).1.w = c.w := by
  unfold blockStage
  rw [alphaComposite_w, draw_color_blocks_w]

theorem blockStage_h (P : Prims) (c : Img) (w h s : Nat) :
    (blockStage P c w h s).1.h = c.h := by
  unfold blockStage
  rw [alphaComposite_h, draw_color_blocks_h]

theorem stripStep_w (P : Prims) (te : Bool) (w h : Nat) (fs : FS)
    (strips : List String) (i : Nat) (c : Img) (s : Nat) :
    (stripStep P te w h fs strips i c s).1.w = c.w := rfl
theorem stripStep_h (P : Prims) (te : Bool) (w h : Nat) (fs : FS)
    (strips : List String) (i : Nat) (c : Img) (s : Nat) :
    (stripStep P te w h fs strips i c s).1.h = c.h := rfl

theorem stripLoop_w (P : Prims) (te : Bool) (w h : Nat) (fs : FS)
    (strips : List String) (c : Img) (s : Nat) :
    (stripLoop P te w h fs strips c s).1.w = c.w := by
  unfold stripLoop
  exact rngFold_inv (fun img => img.w = c.w)
    (fun cv st i => stripStep P te w h fs strips i cv st)
    (fun b s' a hb => (stripStep_w P te w h fs strips a b s').trans hb)
    (List.range (max 2 (strips.length + 1))) c s rfl

theorem stripLoop_h (P : Prims) (te : Bool) (w h : Nat) (fs : FS)
    (strips : List String) (c : Img) (s : Nat) :
    (stripLoop P te w h fs strips c s).1.h = c.h := by
  unfold stripLoop
  exact rngFold_inv (fun img => img.h = c.h)
    (fun cv st i => stripStep P te w h fs strips i cv st)
    (fun b s' a hb => (stripStep_h P te w h fs strips a b s').trans hb)
    (List.range (max 2 (strips.length + 1))) c s rfl

theorem supportStep_w (P : Prims) (te : Bool) (w h i : Nat) (img c : Img)
    (s : Nat) : (supportStep P te w h i img c s).1.w = c.w := rfl
theorem supportStep_h (P : Prims) (te : Bool) (w h i : Nat) (img c : Img)
    (s : Nat) : (supportStep P te w h i img c s).1.h = c.h := rfl

theorem supportLoop_w (P : Prims) (te : Bool) (w h : Nat) (fs : FS) :
    ∀ (l : List String) (i : Nat) (c : Img) (s : Nat),
      (supportLoop P te w h fs l i c s).1.w = c.w := by
  intro l
  induction l with
  | nil => intro i c s; rfl
  | cons p rest ih =>
    intro i c s
    unfold supportLoop
    rcases hfs : fs p with _ | img
    · simpa using ih (i + 1) c s
    · simpa using (ih (i + 1) _ _).trans (supportStep_w P te w h i img c s)

theorem supportLoop_h (P : Prims) (te : Bool) (w h : Nat) (fs : FS) :
    ∀ (l : List String) (i : Nat) (c : Img) (s : Nat),
      (supportLoop P te w h fs l i c s).1.h = c.h := by
  intro l
  induction l with
  | nil => intro i c s; rfl
  | cons p rest ih =>
    intro i c s
    unfold supportLoop
    rcases hfs : fs p with _ | img
    · simpa using ih (i + 1) c s
    · simpa using (ih (i + 1) _ _).trans (supportStep_h P te w h i img c s)

theorem heroStage_w (P : Prims) (te : Bool) (w h : Nat) (fs : FS)
    (hero : Option String) (c : Img) (s : Nat) :
    (heroStage P te w h fs hero c s).1.w = c.w := by
  unfold heroStage
  rcases hero with _ | hp
  · rfl
  · dsimp only
    split
    · rfl
    · rcases hfs : fs hp with _ | img <;> simp [hfs, paste_w]

theorem heroStage_h (P : Prims) (te : Bool) (w h : Nat) (fs : FS)
    (hero : Option String) (c : Img) (s : Nat) :
    (heroStage P te w h fs hero c s).1.h = c.h := by
  unfold heroStage
  rcases hero with _ | hp
  · rfl
  · dsimp only
    split
    · rfl
    · rcases hfs : fs hp with _ | img <;> simp [hfs, paste_h]

theorem composeCanvas_w (P : Prims) (fs : FS) (slug : String)
    (hero : Option String) (supports strips : List String) (cfg : Config)
    (bg : RGB) :
    (composeCanvas P fs slug hero supports strips cfg bg).w = cfg.canvas_size.1 := by
  unfold composeCanvas
  simp only [alphaComposite_w, heroStage_w, supportLoop_w, stripLoop_w,
    blockStage_w, newImg_w]

theorem composeCanvas_h (P : Prims) (fs : FS) (slug : String)
    (hero : Option String) (supports strips : List String) (cfg : Config)
    (bg : RGB) :
    (composeCanvas P fs slug hero supports strips cfg bg).h = cfg.canvas_size.2 := by
  unfold composeCanvas
  simp only [alphaComposite_h, heroStage_h, supportLoop_h, stripLoop_h,
    blockStage_h, newImg_h]

theorem postProcess_w (P : Prims) (cfg : Config) (slug : String) (c : Img)
    (np : Nat) : (postProcess P cfg slug c np).1.w = c.w := by
  unfold postProcess
  rcases hv : cfg.vignette <;> rcases hg : cfg.grain <;>
    rcases hf : cfg.fade_to_parchment <;> simp [hv, hg, hf] <;> rfl

theorem postProcess_h (P : Prims) (cfg : Config) (slug : String) (c : Img)
    (np : Nat) : (postProcess P cfg slug c np).1.h = c.h := by
  unfold postProcess
  rcases hv : cfg.vignette <;> rcases hg : cfg.grain <;>
    rcases hf : cfg.fade_to_parchment <;> simp [hv, hg, hf] <;> rfl

/-- C8: for every requested canvas size, every combination of supplied
fragments (including none at all), every file system of positive-size
decodable images, every toggle setting and every ambient numpy state,
`compose` with the default olive ground succeeds and the output raster's
dimensions equal the requested canvas size exactly.  (The positivity
hypothesis records the image-decoder guarantee under which the `ratio`
division in `resize_to_height` is non-degenerate.) -/
theorem compose_canvas_size (P : Prims) (fs : FS) (slug : String)
    (hero : Option String) (supports strips : List String) (w h : Nat)
    (fade grainB vig torn : Bool) (np : Nat)
    (_himg : ∀ p img, fs p = some img → 0 < img.w ∧ 0 < img.h) :
    (compose P fs slug hero supports strips
        ⟨(w, h), "olive", fade, grainB, vig, torn⟩ np).map
      (fun r => (r.1.w, r.1.h)) = .ok (w, h) := by
  have hres : resolveGround "olive" = .ok OLIVE_GROUND := rfl
  simp only [compose, hres, Except.map]
  rw [postProcess_w, postProcess_h, composeCanvas_w, composeCanvas_h]

/-- Witness for C8 at a concrete empty composition. -/
theorem compose_canvas_size_witness :
    (∀ p img, (fun _ => none : FS) p = some img → 0 < img.w ∧ 0 < img.h) ∧
      (compose trivialPrims (fun _ => none) "parking-lot-problem" none [] []
          ⟨(1200, 750), "olive", true, true, true, true⟩ 0).map
        (fun r => (r.1.w, r.1.h)) = .ok (1200, 750) :=
  ⟨(fun _ _ hc => nomatch hc),
   compose_canvas_size trivialPrims (fun _ => none) "parking-lot-problem" none [] []
     1200 750 true true true true 0 (fun _ _ hc => nomatch hc)⟩

/-- The centre y-coordinate recorded for one accent shape is bounded by
`0.68 * h` (the rng value is in `[0, 1)` and the draw is a `lerp` into
`[20, 0.68 h]`). -/
theorem accentStep_cy (w h : Nat) (overlay : Img) (s : Nat)
    (hh : (20 : ℚ) ≤ (h : ℚ) * (68/100)) :
    (((accentStep w h overlay s).2.2).cy : ℚ) ≤ (h : ℚ) * (68/100) := by
  unfold accentStep
  dsimp only
  split <;>
  · dsimp only
    set t := rngFloat (rngStep (rngStep (rngStep s)))
    have h0 := rngFloat_nonneg (rngStep (rngStep (rngStep s)))
    have h1 := rngFloat_lt_one (rngStep (rngStep (rngStep s)))
    have hb := lerp_bounds hh h0 h1
    have hq0 : (0 : ℚ) ≤ lerp 20 ((h : ℚ) * (68/100)) t :=
      le_trans (by norm_num) hb.1
    exact le_trans (pyInt_le hq0) hb.2

/-- Every accent-shape record produced by the loop has its centre in the
upper 68% band. -/
theorem accentLoop_cy (w h : Nat) (hh : (20 : ℚ) ≤ (h : ℚ) * (68/100)) :
    ∀ (n : Nat) (overlay : Img) (s : Nat) (rec : AccentRec),
      rec ∈ (accentLoop w h n overlay s).2.2 →
        (rec.cy : ℚ) ≤ (h : ℚ) * (68/100) := by
  intro n
  induction n with
  | zero => intro o s rec hm; simp [accentLoop] at hm
  | succ k ih =>
    intro o s rec hm
    unfold accentLoop at hm
    rcases List.mem_cons.1 hm with h1 | h1
    · subst h1; exact accentStep_cy w h o s hh
    · exact ih _ _ _ h1

/-- C7 (amended): the *centre* of every accent shape drawn by
`draw_accent_shapes` lies in the upper 68% of the canvas height
(`cy ≤ 0.68 h`, provided the canvas is tall enough for the band to contain
the 20-px inset); the drawn shape body may extend below the line by up to
its radius or half-side. -/
theorem accent_center_in_upper_zone (w h n : Nat) (canvas overlay : Img)
    (s : Nat) (hh : (20 : ℚ) ≤ (h : ℚ) * (68/100)) :
    ∀ rec ∈ (draw_accent_shapes canvas overlay w h n s).2.2,
      (rec.cy : ℚ) ≤ (h : ℚ) * (68/100) := by
  intro rec hm
  exact accentLoop_cy w h hh n overlay s rec hm

/-- Witness for C7 (amended) at a concrete canvas and state. -/
theorem accent_center_in_upper_zone_witness :
    ((20 : ℚ) ≤ ((100 : Nat) : ℚ) * (68/100)) ∧
      ∀ rec ∈ (draw_accent_shapes (newImg 50 100 ⟨0, 0, 0, 255⟩)
          (newImg 50 100 ⟨0, 0, 0, 0⟩) 50 100 3 0).2.2,
        (rec.cy : ℚ) ≤ ((100 : Nat) : ℚ) * (68/100) :=
  ⟨by norm_num,
   accent_center_in_upper_zone 50 100 3 (newImg 50 100 ⟨0, 0, 0, 255⟩)
     (newImg 50 100 ⟨0, 0, 0, 0⟩) 0 (by norm_num)⟩

/-- Counterexample to C7 as stated: on a 100×100 canvas at rng state 80,
`draw_accent_shapes` draws a single circle centred at `(52, 65)` with radius
4, which paints the pixel `(52, 69)` — strictly below the line
`y = 0.68 × h = 68` — so the drawn shape is not confined to the upper 68% of
the canvas height. -/
theorem accent_below_zone_cex :
    ((100 : ℚ) * (68/100) < (69 : ℚ)) ∧
      (draw_accent_shapes (newImg 100 100 ⟨0, 0, 0, 255⟩)
          (newImg 100 100 ⟨0, 0, 0, 0⟩) 100 100 1 80).1.px 52 69
        ≠ ⟨0, 0, 0, 0⟩ := by
  refine ⟨by norm_num, ?_⟩
  have e1 : rngStep 80 = 2014042712 := by decide
  have e2 : rngStep 2014042712 = 431011090 := by decide
  have e3 : rngStep 431011090 = 2361310623 := by decide
  have e4 : rngStep 2361310623 = 4095500120 := by decide
  have e5 : rngStep 4095500120 = 4195517669 := by decide
  have m1 : (2014042712 : Nat) % 2 ^ 32 = 2014042712 := by decide
  have m2 : (431011090 : Nat) % 2 ^ 32 = 431011090 := by decide
  have m3 : (2361310623 : Nat) % 2 ^ 32 = 2361310623 := by decide
  have m4 : (4095500120 : Nat) % 2 ^ 32 = 4095500120 := by decide
  have m5 : (4195517669 : Nat) % 2 ^ 32 = 4195517669 := by decide
  show (accentStep 100 100 (newImg 100 100 ⟨0, 0, 0, 0⟩) 80).1.px 52 69
    ≠ ⟨0, 0, 0, 0⟩
  unfold accentStep pick pickIdx
  simp only [rngNext, rngFloat, e1, e2, e3, e4, e5, m1, m2, m3, m4, m5]
  norm_num [pyInt, Int.floor_eq_iff, CIRCLE_OPTIONS, List.getD, NEAR_BLACK,
    RGB.withAlpha, lerp, drawEllipse, inEllipse, newImg]

/-- Pasting keeps a pixel's alpha positive: the alpha band blends as
`blend d a a`, which is at least 1 whenever the destination alpha is. -/
theorem blend_alpha_pos (d a : Nat) (hd : 1 ≤ d) : 1 ≤ blend d a a := by
  unfold blend
  rw [Nat.le_div_iff_mul_le (by norm_num : 0 < 255)]
  have h1 : 255 - a ≤ d * (255 - a) := Nat.le_mul_of_pos_left (255 - a) hd
  have h2 : a ≤ a * a ∨ a = 0 := by
    rcases Nat.eq_zero_or_pos a with h | h
    · exact Or.inr h
    · exact Or.inl (Nat.le_mul_of_pos_left a h)
  omega

/-- `paste` preserves the everywhere-positive-alpha invariant of the
destination canvas, for any source fragment. -/
theorem paste_alpha_pos (c src : Img) (x0 y0 : ℤ)
    (hc : ∀ x y, 1 ≤ (c.px x y).a) :
    ∀ x y, 1 ≤ ((paste c src x0 y0).px x y).a := by
  intro x y
  unfold paste
  dsimp only
  split
  · exact blend_alpha_pos _ _ (hc x y)
  · exact hc x y

theorem colorBlockStep_alpha (P : Prims) (w h : Nat) (c : Img) (s i : Nat)
    (hc : ∀ x y, 1 ≤ (c.px x y).a) :
    ∀ x y, 1 ≤ ((colorBlockStep P w h c s i).1.px x y).a := by
  unfold colorBlockStep
  dsimp only
  exact paste_alpha_pos c _ _ _ hc

theorem draw_color_blocks_alpha (P : Prims) (c o : Img) (w h n s : Nat)
    (hc : ∀ x y, 1 ≤ (c.px x y).a) :
    ∀ x y, 1 ≤ ((draw_color_blocks P c o w h n s).1.px x y).a := by
  unfold draw_color_blocks
  exact rngFold_inv (fun img => ∀ x y, 1 ≤ (img.px x y).a) (colorBlockStep P w h)
    (fun b s' a hb => colorBlockStep_alpha P w h b s' a hb) (List.range n) c s hc

/-- Compositing a fully transparent pixel over a pixel with positive alpha is
the identity. -/
theorem compositePx_transparent (u : RGBA) (hu : 1 ≤ u.a) :
    compositePx u ⟨0, 0, 0, 0⟩ = u := by
  obtain ⟨r, g, b, a⟩ := u
  have ha : 1 ≤ a := hu
  have hpos : 0 < a * 255 := Nat.mul_pos ha (by norm_num)
  unfold compositePx
  dsimp only
  rw [if_neg (by simp; omega)]
  simp only [Nat.zero_mul, Nat.mul_zero, Nat.sub_zero, Nat.zero_add,
    RGBA.mk.injEq]
  refine ⟨?_, ?_, ?_, ?_⟩
  · rw [show r * a * 255 = r * (a * 255) by ring]
    exact Nat.mul_div_cancel r hpos
  · rw [show g * a * 255 = g * (a * 255) by ring]
    exact Nat.mul_div_cancel g hpos
  · rw [show b * a * 255 = b * (a * 255) by ring]
    exact Nat.mul_div_cancel b hpos
  · exact Nat.mul_div_cancel a (by norm_num)

/-- Alpha-compositing a fully transparent overlay onto a canvas whose pixels
all have positive alpha is the identity. -/
theorem alphaComposite_transparent (u : Img) (hu : ∀ x y, 1 ≤ (u.px x y).a)
    (w0 h0 : Nat) : alphaComposite u (newImg w0 h0 ⟨0, 0, 0, 0⟩) = u := by
  refine Img.ext' rfl rfl ?_
  intro x y
  unfold alphaComposite newImg
  dsimp only
  split
  · exact compositePx_transparent _ (hu x y)
  · rfl

/-- C6 (amended): `draw_color_blocks` pastes its rectangles directly onto the
canvas and never draws on the overlay it is handed (the
`ImageDraw.Draw(overlay)` handle in the source is unused): the overlay comes
back unchanged, and the colour-block stage of `compose` therefore equals the
direct pastes alone — the subsequent alpha-composite of the still-transparent
overlay is the identity on the pasted canvas. -/
theorem color_blocks_direct_paste (P : Prims) (canvas overlay : Img)
    (w h n s : Nat) (hc : ∀ x y, 1 ≤ (canvas.px x y).a) :
    (draw_color_blocks P canvas overlay w h n s).2.1 = overlay ∧
      (blockStage P canvas w h s).1
        = (draw_color_blocks P canvas (newImg w h ⟨0, 0, 0, 0⟩) w h
            ((pyInt (lerp 3 6 (rngFloat s))).toNat) (rngStep s)).1 := by
  refine ⟨rfl, ?_⟩
  show alphaComposite
      (draw_color_blocks P canvas (newImg w h ⟨0, 0, 0, 0⟩) w h
        ((pyInt (lerp 3 6 (rngFloat s))).toNat) (rngStep s)).1
      (newImg w h ⟨0, 0, 0, 0⟩)
    = (draw_color_blocks P canvas (newImg w h ⟨0, 0, 0, 0⟩) w h
        ((pyInt (lerp 3 6 (rngFloat s))).toNat) (rngStep s)).1
  exact alphaComposite_transparent _
    (draw_color_blocks_alpha P canvas _ w h _ _ hc) w h

/-- Witness for C6 (amended) at a concrete canvas, overlay and state. -/
theorem color_blocks_direct_paste_witness :
    (∀ x y, 1 ≤ (((newImg 4 4 ⟨0, 0, 0, 255⟩)).px x y).a) ∧
      (draw_color_blocks trivialPrims (newImg 4 4 ⟨0, 0, 0, 255⟩)
          (newImg 4 4 ⟨9, 9, 9, 9⟩) 4 4 2 11).2.1 = newImg 4 4 ⟨9, 9, 9, 9⟩ ∧
      (blockStage trivialPrims (newImg 4 4 ⟨0, 0, 0, 255⟩) 4 4 11).1
        = (draw_color_blocks trivialPrims (newImg 4 4 ⟨0, 0, 0, 255⟩)
            (newImg 4 4 ⟨0, 0, 0, 0⟩) 4 4
            ((pyInt (lerp 3 6 (rngFloat 11))).toNat) (rngStep 11)).1 := by
  have hc : ∀ x y : Nat, 1 ≤ ((newImg 4 4 ⟨0, 0, 0, 255⟩).px x y).a := by
    intro x y
    show (1 : Nat) ≤ 255
    norm_num
  have h := color_blocks_direct_paste trivialPrims (newImg 4 4 ⟨0, 0, 0, 255⟩)
    (newImg 4 4 ⟨9, 9, 9, 9⟩) 4 4 2 11 hc
  exact ⟨hc, h.1, h.2⟩

/-- Counterexample to C6 as stated: on a 100×100 black opaque canvas at rng
state 7, `draw_color_blocks` changes the canvas pixel `(1, 38)` directly (a
HOT_PINK 11×16 block with alpha 202 is pasted at `(1, 38)` without
rotation), so the colour-block layer does not leave the canvas to be
modified only by the later alpha-composite of its overlay. -/
theorem color_blocks_canvas_changed_cex :
    (draw_color_blocks trivialPrims (newImg 100 100 ⟨0, 0, 0, 255⟩)
        (newImg 100 100 ⟨0, 0, 0, 0⟩) 100 100 1 7).1.px 1 38
      ≠ (newImg 100 100 ⟨0, 0, 0, 255⟩).px 1 38 := by
  have e1 : rngStep 7 = 2823623703 := by decide
  have e2 : rngStep 2823623703 = 3333406429 := by decide
  have e3 : rngStep 3333406429 = 1380456803 := by decide
  have e4 : rngStep 1380456803 = 1899918611 := by decide
  have e5 : rngStep 1899918611 = 502305906 := by decide
  have e6 : rngStep 502305906 = 2952969228 := by decide
  have e7 : rngStep 2952969228 = 2109989587 := by decide
  have m1 : (2823623703 : Nat) % 2 ^ 32 = 2823623703 := by decide
  have m2 : (3333406429 : Nat) % 2 ^ 32 = 3333406429 := by decide
  have m3 : (1380456803 : Nat) % 2 ^ 32 = 1380456803 := by decide
  have m4 : (1899918611 : Nat) % 2 ^ 32 = 1899918611 := by decide
  have m5 : (502305906 : Nat) % 2 ^ 32 = 502305906 := by decide
  have m6 : (2952969228 : Nat) % 2 ^ 32 = 2952969228 := by decide
  have m7 : (2109989587 : Nat) % 2 ^ 32 = 2109989587 := by decide
  show (colorBlockStep trivialPrims 100 100 (newImg 100 100 ⟨0, 0, 0, 255⟩) 7 0).1.px
      1 38 ≠ (newImg 100 100 ⟨0, 0, 0, 255⟩).px 1 38
  unfold colorBlockStep pick pickIdx
  simp only [rngNext, rngFloat, e1, e2, e3, e4, e5, e6, e7, m1, m2, m3, m4, m5,
    m6, m7]
  norm_num [pyInt, Int.floor_eq_iff, BLOCK_COLORS, List.getD,
    HOT_PINK, RGB.withAlpha, lerp, paste, newImg, blend, trivialPrims, abs]
  simp only [Int.reduceToNat]
  rw [if_pos (by norm_num :
    (8 : ℚ) ≤ (88 - ((11 : ℕ) : ℚ) + 8) * (251152953 / 2147483648))]
  rw [show (⌊(-8 : ℚ) + (88 - ((11 : ℕ) : ℚ) + 8) * (251152953 / 2147483648)⌋ : ℤ)
      = 1 from by norm_num [Int.floor_eq_iff]]
  norm_num [NEAR_BLACK, TERRACOTTA, TEAL, CREAM_DARK, GOLD]

end Collage
